import Mathlib

/-
  Verification of the audio capture → voice-activity segmentation → asynchronous
  transcription pipeline of the SidekickAI repository.

  Shallow embedding conventions:
  * Times are natural numbers measured in milliseconds (the Python code works with
    `time.time()` floats in seconds; every constant of the program is a multiple of
    a millisecond, so the scaling is exact).  The capture loop processes one frame
    per iteration; frame k of a run that starts at time `t0` is processed at time
    `t0 + k * CHUNK_DURATION_MS`, the idealised real-time cadence of the stream.
  * Raw audio bytes are `List Nat`; a frame/chunk is one such list.
  * Probabilities (`no_speech_prob`) are rationals.
  * The mutable segmenter variables of `capture_audio`
    (`speech_buffer`, `is_speaking`, `silence_start`, `speech_start_time`) become a
    record `SegState`, and the body of the `while` loop becomes the pure step
    function `stepFrame`, which also returns the segment pushed to the
    transcription queue by that iteration, when there is one.
-/

/-! ### Configuration constants (backend/config/settings.py, realtime_transcribe.py) -/

def SAMPLE_RATE : Nat := 16000

/-- `CHUNK_DURATION = 0.096` seconds, in milliseconds. -/
def CHUNK_DURATION_MS : Nat := 96

/-- `MIN_SPEECH_DURATION = 0.3` seconds, in milliseconds. -/
def MIN_SPEECH_DURATION_MS : Nat := 300

/-- `MAX_SPEECH_DURATION = 30` seconds, in milliseconds. -/
def MAX_SPEECH_DURATION_MS : Nat := 30000

/-- `SILENCE_DURATION = 0.6` seconds, in milliseconds. -/
def SILENCE_DURATION_MS : Nat := 600

/-- `chunk_size_bytes = int(SAMPLE_RATE * 2 * CHUNK_DURATION)` = 3072. -/
def chunk_size_bytes : Nat := SAMPLE_RATE * 2 * CHUNK_DURATION_MS / 1000

/-! ### The speech segmenter (capture_audio, realtime_transcribe.py lines 281-352;
    identical modulo logging in backend/services/transcription_service.py 171-230) -/

/-- The mutable loop variables of `capture_audio`. -/
structure SegState where
  speech_buffer : List (List Nat)
  is_speaking : Bool
  silence_start : Option Nat
  speech_start_time : Option Nat
deriving Repr, DecidableEq

/-- `speech_buffer = []`, `is_speaking = False`, `silence_start = None`,
    `speech_start_time = None`. -/
def initialSegState : SegState :=
  { speech_buffer := [], is_speaking := false
    silence_start := none, speech_start_time := none }

/-- A `(full_audio, speech_duration)` pair as pushed to `transcription_queue`. -/
structure SpeechSegment where
  audio : List Nat
  duration : Nat
deriving Repr, DecidableEq

/-- `speech_duration = time.time() - speech_start_time if speech_start_time else 0`:
    Python truthiness makes both `None` and a zero start time yield 0. -/
def speechDurationAt (now : Nat) : Option Nat → Nat
  | some t => if t = 0 then 0 else now - t
  | none => 0

/-- One iteration of the `while is_recording` loop body of `capture_audio`, after the
    chunk has been read (full length) and classified by the VAD.  Returns the new
    state together with the segment put on the transcription queue, if any. -/
def stepFrame (st : SegState) (now : Nat) (chunk : List Nat) (speech_detected : Bool) :
    SegState × Option SpeechSegment :=
  if speech_detected then
    -- speech branch: start the episode if needed, buffer the frame, clear silence
    ({ speech_buffer := st.speech_buffer ++ [chunk]
       is_speaking := true
       silence_start := none
       speech_start_time := if st.is_speaking then st.speech_start_time else some now },
     none)
  else if st.is_speaking then
    -- silence while speaking: keep recording during short pauses
    let buf := st.speech_buffer ++ [chunk]
    let sil_start := st.silence_start.getD now
    let silence_duration := now - sil_start
    let speech_duration := speechDurationAt now st.speech_start_time
    if SILENCE_DURATION_MS ≤ silence_duration ∨ MAX_SPEECH_DURATION_MS ≤ speech_duration then
      -- cutoff: emit when non-empty and long enough, then reset for the next phrase
      (initialSegState,
       if 0 < buf.length ∧ MIN_SPEECH_DURATION_MS ≤ speech_duration then
         some { audio := buf.flatten, duration := speech_duration }
       else none)
    else
      ({ speech_buffer := buf, is_speaking := true
         silence_start := some sil_start, speech_start_time := st.speech_start_time },
       none)
  else
    -- silence while idle: nothing happens
    (st, none)

/-- Run the segmenter over a list of already-classified frames
    (chunk, VAD decision), one frame per `CHUNK_DURATION_MS` tick, collecting every
    segment emitted to the queue and the final state. -/
def runSegFrom : SegState → Nat → List (List Nat × Bool) → List SpeechSegment × SegState
  | st, _, [] => ([], st)
  | st, now, f :: fs =>
    let p := stepFrame st now f.1 f.2
    let q := runSegFrom p.1 (now + CHUNK_DURATION_MS) fs
    (p.2.toList ++ q.1, q.2)

/-- A whole capture run from the initial (Idle) state, started at time `t0`. -/
def runSeg (t0 : Nat) (frames : List (List Nat × Bool)) : List SpeechSegment × SegState :=
  runSegFrom initialSegState t0 frames

/-- The capture loop over raw reads from the audio process
    (realtime_transcribe.py lines 292-352): a read shorter than `chunk_size_bytes`
    breaks out of the loop before the VAD is consulted; the in-progress buffer is
    simply abandoned.  `vf` is the VAD decision function (`vad.is_speech`). -/
def captureLoop : (List Nat → Bool) → SegState → Nat → List (List Nat) → List SpeechSegment
  | _, _, _, [] => []
  | vf, st, now, r :: rs =>
    if r.length < chunk_size_bytes then []
    else
      let p := stepFrame st now r (vf r)
      p.2.toList ++ captureLoop vf p.1 (now + CHUNK_DURATION_MS) rs

/-- `capture_audio`, abstracted over the VAD and the list of reads the audio process
    produces before the recording flag stops the loop. -/
def capture_audio (vf : List Nat → Bool) (t0 : Nat) (reads : List (List Nat)) :
    List SpeechSegment :=
  captureLoop vf initialSegState t0 reads

/-! ### Basic lemmas about the segmenter -/

/-- The speech branch of the loop never pushes a segment. -/
theorem stepFrame_speech_none (st : SegState) (now : Nat) (chunk : List Nat) :
    (stepFrame st now chunk true).2 = none := by
  simp [stepFrame]

/-- Whatever the state, an emitted segment carries the `speech_duration` that was
    checked against `MIN_SPEECH_DURATION` in the emission guard. -/
theorem stepFrame_emit_min (st : SegState) (now : Nat) (chunk : List Nat) (sp : Bool)
    (seg : SpeechSegment) (h : (stepFrame st now chunk sp).2 = some seg) :
    MIN_SPEECH_DURATION_MS ≤ seg.duration := by
  unfold stepFrame at h
  by_cases hsp : sp = true
  · subst hsp; simp at h
  · simp only [Bool.not_eq_true] at hsp
    subst hsp
    simp only [Bool.false_eq_true, if_false] at h
    by_cases hspk : st.is_speaking = true
    · simp only [hspk, if_true] at h
      set sd := speechDurationAt now st.speech_start_time with hsd
      by_cases hcut :
          SILENCE_DURATION_MS ≤ now - st.silence_start.getD now ∨ MAX_SPEECH_DURATION_MS ≤ sd
      · rw [if_pos hcut] at h
        by_cases hg : 0 < (st.speech_buffer ++ [chunk]).length ∧ MIN_SPEECH_DURATION_MS ≤ sd
        · rw [if_pos hg] at h
          cases h
          exact hg.2
        · rw [if_neg hg] at h
          exact absurd h (by simp)
      · rw [if_neg hcut] at h
        exact absurd h (by simp)
    · simp only [hspk, if_false] at h
      simp at h

/-- Segments collected by a run are exactly the per-step emissions, so any property
    of `stepFrame` emissions lifts to runs. -/
theorem runSegFrom_mem (st : SegState) (now : Nat) (fs : List (List Nat × Bool))
    (seg : SpeechSegment) (h : seg ∈ (runSegFrom st now fs).1) :
    ∃ st1 t c b, (stepFrame st1 t c b).2 = some seg := by
  induction fs generalizing st now with
  | nil => simp [runSegFrom] at h
  | cons f fs ih =>
    rw [runSegFrom] at h
    simp only [List.mem_append] at h
    rcases h with h | h
    · refine ⟨st, now, f.1, f.2, ?_⟩
      cases hem : (stepFrame st now f.1 f.2).2 with
      | none => rw [hem] at h; simp at h
      | some s => rw [hem] at h; simp at h; rw [h]
    · exact ih _ _ h

/-- On an all-speech input the silence branch is never entered, so no step emits. -/
theorem runSegFrom_all_speech (fs : List (List Nat × Bool)) (st : SegState) (now : Nat)
    (h : ∀ f ∈ fs, f.2 = true) : (runSegFrom st now fs).1 = [] := by
  induction fs generalizing st now with
  | nil => simp [runSegFrom]
  | cons f fs ih =>
    rw [runSegFrom]
    have hf : f.2 = true := h f (List.mem_cons_self f fs)
    simp only [hf, stepFrame_speech_none, Option.toList_none, List.nil_append]
    exact ih _ _ (fun g hg => h g (List.mem_cons_of_mem f hg))

/-- C2: an input frame sequence in which every frame is classified as speech never
    makes the segmenter emit a segment, however long the sequence is: the cutoff is
    evaluated only in the silence branch of the loop, which is never taken. -/
theorem claim2_all_speech_never_emits (t0 : Nat) (frames : List (List Nat × Bool))
    (h : ∀ f ∈ frames, f.2 = true) : (runSeg t0 frames).1 = [] :=
  runSegFrom_all_speech frames initialSegState t0 h

/-- Witness for C2: 323 consecutive speech frames (31.008 s > MAX_SPEECH_DURATION)
    produce zero segments. -/
theorem claim2_all_speech_never_emits_witness :
    (∀ f ∈ List.replicate 323 (([1] : List Nat), true), f.2 = true) ∧
    (runSeg 1000 (List.replicate 323 (([1] : List Nat), true))).1 = [] :=
  ⟨fun f hf => by rw [List.eq_of_mem_replicate hf],
   claim2_all_speech_never_emits 1000 _
     (fun f hf => by rw [List.eq_of_mem_replicate hf])⟩

/-- C4: every segment emitted by a run satisfies
    `speech_duration >= MIN_SPEECH_DURATION`, where `speech_duration` is the
    `now - speech_start_time` value computed at the cutoff check: emission is
    guarded by exactly that comparison. -/
theorem claim4_emitted_at_least_min (t0 : Nat) (frames : List (List Nat × Bool))
    (seg : SpeechSegment) (h : seg ∈ (runSeg t0 frames).1) :
    MIN_SPEECH_DURATION_MS ≤ seg.duration := by
  obtain ⟨st1, t, c, b, hstep⟩ := runSegFrom_mem initialSegState t0 frames seg h
  exact stepFrame_emit_min st1 t c b seg hstep

/-- Witness for C4: the 5-speech / 8-silence scenario emits a segment of duration
    1152 ms, and the theorem yields `MIN_SPEECH_DURATION_MS ≤ 1152`. -/
theorem claim4_emitted_at_least_min_witness :
    MIN_SPEECH_DURATION_MS ≤
      (SpeechSegment.mk [1, 1, 1, 1, 1, 0, 0, 0, 0, 0, 0, 0, 0] 1152).duration :=
  claim4_emitted_at_least_min 1000
    (List.replicate 5 (([1] : List Nat), true) ++ List.replicate 8 ([0], false))
    (SpeechSegment.mk [1, 1, 1, 1, 1, 0, 0, 0, 0, 0, 0, 0, 0] 1152) (by decide)

/-- C1 counterexample: the spec's below-minimum scenario — 2 speech frames (0.192 s
    of speech, < MIN_SPEECH_DURATION) followed by enough silence frames to reach the
    silence cutoff — emits ONE segment, not zero: at the cutoff check
    `speech_duration = now - speech_start_time` already includes the trailing
    silence (here 864 ms ≥ 300 ms), so the discard branch is not taken. -/
theorem claim1_counterexample :
    (runSeg 1000 (List.replicate 2 (([1] : List Nat), true) ++
        List.replicate 8 ([0], false))).1 ≠ [] ∧
    runSeg 1000 (List.replicate 2 (([1] : List Nat), true) ++
        List.replicate 8 ([0], false)) =
      ([{ audio := [1, 1, 0, 0, 0, 0, 0, 0, 0, 0], duration := 864 }],
       initialSegState) := by
  constructor
  · decide
  · decide

/-- Unfolding lemma: a run over no frames emits nothing and keeps the state. -/
theorem runSegFrom_nil (st : SegState) (now : Nat) : runSegFrom st now [] = ([], st) := rfl

/-- Unfolding lemma: a run over `f :: fs` performs one `stepFrame` and recurses one
    chunk duration later. -/
theorem runSegFrom_cons (st : SegState) (now : Nat) (f : List Nat × Bool)
    (fs : List (List Nat × Bool)) :
    runSegFrom st now (f :: fs) =
      ((stepFrame st now f.1 f.2).2.toList ++
        (runSegFrom (stepFrame st now f.1 f.2).1 (now + CHUNK_DURATION_MS) fs).1,
       (runSegFrom (stepFrame st now f.1 f.2).1 (now + CHUNK_DURATION_MS) fs).2) := rfl

/-- C1 amended: a 2-frame (0.192 s) speech episode followed by the 8 consecutive
    silence frames that reach the silence cutoff makes the segmenter emit exactly ONE
    segment — containing all ten frames, with `speech_duration = 864` ms because the
    duration measured at the cutoff includes the trailing silence — and reset to
    Idle.  Holds for every start time `t0 > 0` and any frame contents. -/
theorem claim1_amended_short_episode_emits (t0 : Nat) (h0 : 0 < t0) (a b : List Nat) :
    runSeg t0 [(a, true), (a, true), (b, false), (b, false), (b, false), (b, false),
      (b, false), (b, false), (b, false), (b, false)] =
      ([{ audio := ([a, a, b, b, b, b, b, b, b, b] : List (List Nat)).flatten,
          duration := 864 }], initialSegState) := by
  have ht : ¬(t0 = 0) := Nat.pos_iff_ne_zero.mp h0
  have e0 : stepFrame initialSegState t0 a true =
      (SegState.mk [a] true none (some t0), none) := rfl
  have e1 : stepFrame (SegState.mk [a] true none (some t0)) (t0 + 96) a true =
      (SegState.mk [a, a] true none (some t0), none) := rfl
  have e2 : stepFrame (SegState.mk [a, a] true none (some t0)) (t0 + 192) b false =
      (SegState.mk [a, a, b] true (some (t0 + 192)) (some t0), none) := by
    simp [stepFrame, speechDurationAt, if_neg ht, SILENCE_DURATION_MS,
      MAX_SPEECH_DURATION_MS, MIN_SPEECH_DURATION_MS]
  have e3 : stepFrame (SegState.mk [a, a, b] true (some (t0 + 192)) (some t0))
      (t0 + 288) b false =
      (SegState.mk [a, a, b, b] true (some (t0 + 192)) (some t0), none) := by
    simp [stepFrame, speechDurationAt, if_neg ht, SILENCE_DURATION_MS,
      MAX_SPEECH_DURATION_MS, MIN_SPEECH_DURATION_MS]
  have e4 : stepFrame (SegState.mk [a, a, b, b] true (some (t0 + 192)) (some t0))
      (t0 + 384) b false =
      (SegState.mk [a, a, b, b, b] true (some (t0 + 192)) (some t0), none) := by
    simp [stepFrame, speechDurationAt, if_neg ht, SILENCE_DURATION_MS,
      MAX_SPEECH_DURATION_MS, MIN_SPEECH_DURATION_MS]
  have e5 : stepFrame (SegState.mk [a, a, b, b, b] true (some (t0 + 192)) (some t0))
      (t0 + 480) b false =
      (SegState.mk [a, a, b, b, b, b] true (some (t0 + 192)) (some t0), none) := by
    simp [stepFrame, speechDurationAt, if_neg ht, SILENCE_DURATION_MS,
      MAX_SPEECH_DURATION_MS, MIN_SPEECH_DURATION_MS]
  have e6 : stepFrame (SegState.mk [a, a, b, b, b, b] true (some (t0 + 192)) (some t0))
      (t0 + 576) b false =
      (SegState.mk [a, a, b, b, b, b, b] true (some (t0 + 192)) (some t0), none) := by
    simp [stepFrame, speechDurationAt, if_neg ht, SILENCE_DURATION_MS,
      MAX_SPEECH_DURATION_MS, MIN_SPEECH_DURATION_MS]
  have e7 : stepFrame (SegState.mk [a, a, b, b, b, b, b] true (some (t0 + 192)) (some t0))
      (t0 + 672) b false =
      (SegState.mk [a, a, b, b, b, b, b, b] true (some (t0 + 192)) (some t0), none) := by
    simp [stepFrame, speechDurationAt, if_neg ht, SILENCE_DURATION_MS,
      MAX_SPEECH_DURATION_MS, MIN_SPEECH_DURATION_MS]
  have e8 : stepFrame (SegState.mk [a, a, b, b, b, b, b, b] true
      (some (t0 + 192)) (some t0)) (t0 + 768) b false =
      (SegState.mk [a, a, b, b, b, b, b, b, b] true (some (t0 + 192)) (some t0), none) := by
    simp [stepFrame, speechDurationAt, if_neg ht, SILENCE_DURATION_MS,
      MAX_SPEECH_DURATION_MS, MIN_SPEECH_DURATION_MS]
  have e9 : stepFrame (SegState.mk [a, a, b, b, b, b, b, b, b] true
      (some (t0 + 192)) (some t0)) (t0 + 864) b false =
      (initialSegState,
       some { audio := ([a, a, b, b, b, b, b, b, b, b] : List (List Nat)).flatten,
              duration := 864 }) := by
    simp [stepFrame, speechDurationAt, if_neg ht, SILENCE_DURATION_MS,
      MAX_SPEECH_DURATION_MS, MIN_SPEECH_DURATION_MS, initialSegState]
  simp only [runSeg, runSegFrom_cons, runSegFrom_nil, CHUNK_DURATION_MS, Nat.add_assoc,
    Nat.reduceAdd, e0, e1, e2, e3, e4, e5, e6, e7, e8, e9, Option.toList_some,
    Option.toList_none, List.nil_append, List.append_nil, List.singleton_append,
    List.cons_append]

/-- Witness for the amended C1: the concrete scenario at start time 1000 with
    one-byte frames. -/
theorem claim1_amended_short_episode_emits_witness :
    runSeg 1000 [(([1] : List Nat), true), ([1], true), ([0], false), ([0], false),
      ([0], false), ([0], false), ([0], false), ([0], false), ([0], false),
      ([0], false)] =
      ([{ audio := ([[1], [1], [0], [0], [0], [0], [0], [0], [0], [0]] :
            List (List Nat)).flatten, duration := 864 }], initialSegState) :=
  claim1_amended_short_episode_emits 1000 (by norm_num) [1] [0]

/-- A short read breaks the capture loop: everything after it — including the short
    read itself — is irrelevant to the emitted segments, and the in-progress state
    (in particular a non-empty speech buffer) is abandoned, never flushed. -/
theorem captureLoop_stops_at_short_read (pre : List (List Nat)) (vf : List Nat → Bool)
    (st : SegState) (now : Nat) (s : List Nat) (rest : List (List Nat))
    (hpre : ∀ r ∈ pre, r.length = chunk_size_bytes) (hs : s.length < chunk_size_bytes) :
    captureLoop vf st now (pre ++ s :: rest) = captureLoop vf st now pre := by
  induction pre generalizing st now with
  | nil =>
    simp only [List.nil_append, captureLoop, if_pos hs]
  | cons r pre ih =>
    have hr : ¬(r.length < chunk_size_bytes) := by
      rw [hpre r (List.mem_cons_self r pre)]
      exact lt_irrefl _
    rw [List.cons_append, captureLoop, if_neg hr]
    conv_rhs => rw [captureLoop, if_neg hr]
    simp only [ih _ _ (fun g hg => hpre g (List.mem_cons_of_mem r hg))]

/-- C10: if the audio stream ends with a read shorter than a full frame while a
    speech episode is in progress, the capture loop exits at that read: the segments
    pushed to the queue are exactly those of the run over the full-length reads that
    preceded it — the incomplete episode's buffered frames are silently discarded,
    and neither the short read nor any later data is classified or buffered. -/
theorem claim10_short_read_discards_episode (vf : List Nat → Bool) (t0 : Nat)
    (pre : List (List Nat)) (s : List Nat) (rest : List (List Nat))
    (hpre : ∀ r ∈ pre, r.length = chunk_size_bytes) (hs : s.length < chunk_size_bytes) :
    capture_audio vf t0 (pre ++ s :: rest) = capture_audio vf t0 pre :=
  captureLoop_stops_at_short_read pre vf initialSegState t0 s rest hpre hs

/-- Witness for C10: one full-length speech frame, then an empty (short) read, then a
    further full frame that is never reached. -/
theorem claim10_short_read_discards_episode_witness :
    capture_audio (fun c => decide (0 < c.headD 0)) 1000
        ([List.replicate 3072 1] ++ [] :: [List.replicate 3072 1]) =
      capture_audio (fun c => decide (0 < c.headD 0)) 1000 [List.replicate 3072 1] :=
  claim10_short_read_discards_episode (fun c => decide (0 < c.headD 0)) 1000
    [List.replicate 3072 1] [] [List.replicate 3072 1]
    (by intro r hr; rw [List.mem_singleton] at hr; rw [hr, List.length_replicate]; rfl)
    (by rw [List.length_nil]; decide)

/-- Exhaustive description of one loop iteration, by branch of the source. -/
theorem stepFrame_cases (st : SegState) (now : Nat) (c : List Nat) (sp : Bool) :
    (sp = true ∧ stepFrame st now c sp =
      (SegState.mk (st.speech_buffer ++ [c]) true none
        (if st.is_speaking then st.speech_start_time else some now), none)) ∨
    (sp = false ∧ st.is_speaking = false ∧ stepFrame st now c sp = (st, none)) ∨
    (sp = false ∧ st.is_speaking = true ∧
      (stepFrame st now c sp).1 = initialSegState ∧
      ((stepFrame st now c sp).2 = none ∨
        (stepFrame st now c sp).2 =
          some { audio := (st.speech_buffer ++ [c]).flatten
                 duration := speechDurationAt now st.speech_start_time })) ∨
    (sp = false ∧ st.is_speaking = true ∧ stepFrame st now c sp =
      (SegState.mk (st.speech_buffer ++ [c]) true (some (st.silence_start.getD now))
        st.speech_start_time, none)) := by
  cases hsp : sp with
  | true =>
    left
    refine ⟨rfl, ?_⟩
    simp only [stepFrame, if_true]
  | false =>
    cases hspk : st.is_speaking with
    | false =>
      right; left
      refine ⟨rfl, rfl, ?_⟩
      simp [stepFrame, hspk]
    | true =>
      by_cases hcut : SILENCE_DURATION_MS ≤ now - st.silence_start.getD now ∨
          MAX_SPEECH_DURATION_MS ≤ speechDurationAt now st.speech_start_time
      · right; right; left
        refine ⟨rfl, rfl, ?_, ?_⟩
        · simp [stepFrame, hspk, if_pos hcut]
        · by_cases hg : 0 < (st.speech_buffer ++ [c]).length ∧
              MIN_SPEECH_DURATION_MS ≤ speechDurationAt now st.speech_start_time
          · right
            simp [stepFrame, hspk, if_pos hcut, if_pos hg]
            exact hg.2
          · left
            have hsd : ¬MIN_SPEECH_DURATION_MS ≤ speechDurationAt now st.speech_start_time :=
              fun hmin => hg ⟨by simp, hmin⟩
            simp [stepFrame, hspk, if_pos hcut, if_neg hg]
            omega
      · right; right; right
        refine ⟨rfl, rfl, ?_⟩
        simp [stepFrame, hspk, if_neg hcut]

/-- Relation between the segmenter state and the frames already consumed: when idle
    the buffer is empty; when speaking the buffer is exactly the contiguous,
    order-preserving block of frames from the episode onset (a speech frame) to the
    present, pauses included. -/
def BufferInv (st : SegState) (done : List (List Nat × Bool)) : Prop :=
  (st.is_speaking = false → st.speech_buffer = []) ∧
  (st.is_speaking = true →
    ∃ j, j < done.length ∧ st.speech_buffer = (done.drop j).map Prod.fst ∧
      (done[j]?).map Prod.snd = some true)

theorem BufferInv_initial (done : List (List Nat × Bool)) :
    BufferInv initialSegState done :=
  ⟨fun _ => rfl, fun h => by simp [initialSegState] at h⟩

/-- The invariant is preserved by one loop iteration. -/
theorem BufferInv_step (st : SegState) (now : Nat) (f : List Nat × Bool)
    (done : List (List Nat × Bool)) (hinv : BufferInv st done) :
    BufferInv (stepFrame st now f.1 f.2).1 (done ++ [f]) := by
  rcases stepFrame_cases st now f.1 f.2 with
    ⟨hsp, heq⟩ | ⟨hsp, hspk, heq⟩ | ⟨hsp, hspk, heq, _⟩ | ⟨hsp, hspk, heq⟩
  · -- speech frame
    rw [heq]
    refine ⟨fun h => by simp at h, fun _ => ?_⟩
    cases hspk : st.is_speaking with
    | true =>
      obtain ⟨j, hj, hbuf, honset⟩ := hinv.2 hspk
      refine ⟨j, ?_, ?_, ?_⟩
      · simp only [List.length_append, List.length_cons, List.length_nil]
        omega
      · rw [List.drop_append_of_le_length (le_of_lt hj), List.map_append, ← hbuf]
        simp
      · rw [List.getElem?_append_left hj, honset]
    | false =>
      refine ⟨done.length, ?_, ?_, ?_⟩
      · simp
      · rw [List.drop_left, hinv.1 hspk]
        simp
      · simp [hsp]
  · -- silence while idle
    rw [heq]
    refine ⟨fun _ => hinv.1 hspk, fun h => by rw [h] at hspk; cases hspk⟩
  · -- silence cutoff: reset
    rw [heq]
    exact BufferInv_initial _
  · -- silence while speaking, no cutoff: pause retained
    rw [heq]
    refine ⟨fun h => by simp at h, fun _ => ?_⟩
    obtain ⟨j, hj, hbuf, honset⟩ := hinv.2 hspk
    refine ⟨j, ?_, ?_, ?_⟩
    · simp only [List.length_append, List.length_cons, List.length_nil]
      omega
    · rw [List.drop_append_of_le_length (le_of_lt hj), List.map_append, ← hbuf]
      simp
    · rw [List.getElem?_append_left hj, honset]

/-- Shape of an emitted segment: emission happens only on a silence frame in the
    speaking state, and the audio is the concatenation of the buffered frames plus
    the current frame. -/
theorem stepFrame_emit_shape (st : SegState) (now : Nat) (c : List Nat) (sp : Bool)
    (seg : SpeechSegment) (h : (stepFrame st now c sp).2 = some seg) :
    sp = false ∧ st.is_speaking = true ∧
    seg.audio = (st.speech_buffer ++ [c]).flatten := by
  rcases stepFrame_cases st now c sp with
    ⟨hsp, heq⟩ | ⟨hsp, hspk, heq⟩ | ⟨hsp, hspk, _, hem⟩ | ⟨hsp, hspk, heq⟩
  · rw [heq] at h; cases h
  · rw [heq] at h; cases h
  · rcases hem with hem | hem
    · rw [hem] at h; cases h
    · rw [hem] at h
      cases h
      exact ⟨hsp, hspk, rfl⟩
  · rw [heq] at h; cases h

/-- Every segment emitted during a run is the flattening of a contiguous slice of
    the input frames, starting at a speech frame.  `done` are the frames consumed
    before the run under consideration began. -/
theorem runSegFrom_emit_slice (fs : List (List Nat × Bool)) (st : SegState) (now : Nat)
    (done : List (List Nat × Bool)) (hinv : BufferInv st done) (seg : SpeechSegment)
    (h : seg ∈ (runSegFrom st now fs).1) :
    ∃ j k, j ≤ k ∧ k < (done ++ fs).length ∧
      seg.audio = ((((done ++ fs).take (k + 1)).drop j).map Prod.fst).flatten ∧
      ((done ++ fs)[j]?).map Prod.snd = some true := by
  induction fs generalizing st now done with
  | nil => simp [runSegFrom] at h
  | cons f fs ih =>
    rw [runSegFrom_cons] at h
    rw [List.mem_append] at h
    have hassoc : done ++ f :: fs = (done ++ [f]) ++ fs := by simp
    rcases h with h | h
    · -- emitted at this step
      cases hem : (stepFrame st now f.1 f.2).2 with
      | none => rw [hem] at h; simp at h
      | some s =>
        rw [hem] at h
        simp only [Option.toList_some, List.mem_singleton] at h
        subst h
        obtain ⟨hsp, hspk, haudio⟩ := stepFrame_emit_shape st now f.1 f.2 seg hem
        obtain ⟨j, hj, hbuf, honset⟩ := hinv.2 hspk
        have hjlt : j < (done ++ f :: fs).length := by simp; omega
        refine ⟨j, done.length, le_of_lt hj, by simp, ?_, ?_⟩
        · rw [show (done ++ f :: fs).take (done.length + 1) = done ++ [f] by
            rw [← List.singleton_append, ← List.append_assoc]
            rw [show done.length + 1 = (done ++ [f]).length by simp]
            exact List.take_left _ _]
          rw [List.drop_append_of_le_length (le_of_lt hj), List.map_append]
          rw [haudio, hbuf]
          simp
        · rw [List.getElem?_append_left hj, honset]
    · have := ih (stepFrame st now f.1 f.2).1 (now + CHUNK_DURATION_MS) (done ++ [f])
        (BufferInv_step st now f done hinv) h
      rw [← hassoc] at this
      exact this

/-- C5: the byte buffer of every emitted segment is the exact, order-preserving
    concatenation of a contiguous block of input frames beginning at a speech frame
    (the episode onset) — every frame from onset through the cutoff frame is
    included exactly once, pauses retained, and nothing from before the onset or
    from the Idle state appears. -/
theorem claim5_emitted_audio_is_episode_slice (t0 : Nat)
    (frames : List (List Nat × Bool)) (seg : SpeechSegment)
    (h : seg ∈ (runSeg t0 frames).1) :
    ∃ j k, j ≤ k ∧ k < frames.length ∧
      seg.audio = (((frames.take (k + 1)).drop j).map Prod.fst).flatten ∧
      (frames[j]?).map Prod.snd = some true := by
  have hmain := runSegFrom_emit_slice frames initialSegState t0 []
    (BufferInv_initial []) seg h
  simpa using hmain

/-- Witness for C5: in the 5-speech/8-silence scenario the emitted audio is the
    flattening of a contiguous slice of the input starting at a speech frame. -/
theorem claim5_emitted_audio_is_episode_slice_witness :
    ∃ j k, j ≤ k ∧
      k < ([(([1] : List Nat), true), ([1], true), ([1], true), ([1], true),
        ([1], true), ([0], false), ([0], false), ([0], false), ([0], false),
        ([0], false), ([0], false), ([0], false), ([0], false)]).length ∧
      (SpeechSegment.mk [1, 1, 1, 1, 1, 0, 0, 0, 0, 0, 0, 0, 0] 1152).audio =
        (((([(([1] : List Nat), true), ([1], true), ([1], true), ([1], true),
          ([1], true), ([0], false), ([0], false), ([0], false), ([0], false),
          ([0], false), ([0], false), ([0], false), ([0], false)]).take
            (k + 1)).drop j).map Prod.fst).flatten ∧
      (([(([1] : List Nat), true), ([1], true), ([1], true), ([1], true),
        ([1], true), ([0], false), ([0], false), ([0], false), ([0], false),
        ([0], false), ([0], false), ([0], false), ([0], false)])[j]?).map
          Prod.snd = some true :=
  claim5_emitted_audio_is_episode_slice 1000 _
    (SpeechSegment.mk [1, 1, 1, 1, 1, 0, 0, 0, 0, 0, 0, 0, 0] 1152) (by decide)

/-! ### Transcription worker: confidence and empty-text handling
    (backend/services/transcription_service.py lines 103-124; the same code appears
    at realtime_transcribe.py lines 197-226) -/

/-- Confidence computation from the engine result's optional `segments` list.  Each
    sub-segment contributes `seg.get("no_speech_prob", 0)` (`none` = key absent,
    defaulted to 0).  Mirrors:
    `confidence = None` ;
    `if "segments" in result and result["segments"]:` ;
    `confidences = [seg.get("no_speech_prob", 0) for seg in result["segments"]]` ;
    `if confidences: confidence = 1.0 - (sum(confidences) / len(confidences))`. -/
def computeConfidence (segments : Option (List (Option Rat))) : Option Rat :=
  match segments with
  | some segs =>
    if segs ≠ [] then
      let confidences := segs.map (fun s => s.getD 0)
      if confidences ≠ [] then
        some (1 - confidences.sum / (confidences.length : Rat))
      else none
    else none
  | none => none

/-- Python's `str.strip()`: remove leading and trailing whitespace.  Text is
    modelled as a list of characters. -/
def stripChars (s : List Char) : List Char :=
  ((s.dropWhile Char.isWhitespace).reverse.dropWhile Char.isWhitespace).reverse

/-- The transcription engine's result: recognized text plus the optional
    `segments` key with per-sub-segment `no_speech_prob` values. -/
structure EngineResult where
  text : List Char
  segments : Option (List (Option Rat))

/-- What the worker forwards for one engine result (text after strip, confidence). -/
structure TranscriptOutput where
  text : List Char
  confidence : Option Rat
deriving DecidableEq

/-- The worker's handling of one engine result:
    `text = result["text"].strip()` ; `if text:` compute confidence, display and
    forward; otherwise do nothing and move to the next queue item. -/
def processResult (r : EngineResult) : Option TranscriptOutput :=
  let text := stripChars r.text
  if text = [] then none
  else some { text := text, confidence := computeConfidence r.segments }

/-- C6: confidence is `1 - (sum of no_speech_prob) / (number of sub-segments)` when
    the `segments` list is present and non-empty, and `None` when the key is absent
    or the list is empty. -/
theorem claim6_confidence_formula (l : List (Option Rat)) :
    computeConfidence none = none ∧
    computeConfidence (some []) = none ∧
    (l ≠ [] →
      computeConfidence (some l) =
        some (1 - (l.map (fun s => s.getD 0)).sum / ((l.length : Rat)))) := by
  refine ⟨rfl, rfl, fun hl => ?_⟩
  simp [computeConfidence, hl]

/-- Witness for C6: two sub-segments with `no_speech_prob` 1/4 and an absent key
    (defaulted to 0) give confidence `1 - (1/4 + 0)/2`. -/
theorem claim6_confidence_formula_witness :
    computeConfidence (some [some (1/4 : Rat), none]) =
      some (1 - ([some (1/4 : Rat), none].map (fun s => s.getD 0)).sum /
        (([some (1/4 : Rat), none].length : Rat))) :=
  (claim6_confidence_formula [some (1/4 : Rat), none]).2.2 (by simp)

/-- C7: when the recognized text is empty after stripping whitespace, the worker
    emits nothing — no display, no log, no forwarding — and simply proceeds. -/
theorem claim7_empty_text_dropped (r : EngineResult) (h : stripChars r.text = []) :
    processResult r = none := by
  simp [processResult, h]

/-- Witness for C7: a whitespace-only transcription is dropped. -/
theorem claim7_empty_text_dropped_witness :
    processResult (EngineResult.mk [' ', ' ', ' '] (some [some (1/2 : Rat)])) = none :=
  claim7_empty_text_dropped (EngineResult.mk [' ', ' ', ' '] (some [some (1/2 : Rat)]))
    (by decide)

/-! ### VAD selection (backend/utils/vad.py lines 67-76) -/

/-- The two interchangeable detector strategies. -/
inductive VadKind where
  | silero
  | energy
deriving DecidableEq, Repr

/-- `get_vad`: try `SileroVAD()` when torch imported successfully, else
    `EnergyVAD()`; any exception from construction is caught and answered with
    `EnergyVAD()`.  The environment enters as the `SILERO_AVAILABLE` flag and the
    outcome of the Silero constructor (which raises when the model cannot load). -/
def get_vad (sileroAvailable : Bool) (sileroCtor : Except String Unit) : VadKind :=
  if sileroAvailable then
    match sileroCtor with
    | Except.ok _ => VadKind.silero
    | Except.error _ => VadKind.energy
  else VadKind.energy

/-- C8: detector selection is total — it returns a detector for every environment —
    and whenever torch is unavailable or the Silero constructor fails for any
    reason, the detector returned is the energy-based one; no exception escapes
    (`get_vad` returns `VadKind`, not an exceptional result). -/
theorem claim8_vad_fallback (avail : Bool) (ctor : Except String Unit) :
    (get_vad avail ctor = VadKind.silero ∨ get_vad avail ctor = VadKind.energy) ∧
    ((avail = false ∨ ∃ e, ctor = Except.error e) →
      get_vad avail ctor = VadKind.energy) := by
  constructor
  · cases avail <;> cases ctor <;> simp [get_vad]
  · rintro (h | ⟨e, rfl⟩)
    · rw [h]
      rfl
    · cases avail <;> simp [get_vad]

/-- Witness for C8: torch present but the Silero constructor throwing yields the
    energy detector. -/
theorem claim8_vad_fallback_witness :
    get_vad true (Except.error "torch hub load failed") = VadKind.energy :=
  (claim8_vad_fallback true (Except.error "torch hub load failed")).2
    (Or.inr ⟨"torch hub load failed", rfl⟩)

/-! ### Result sink (send_to_web_server, transcription_service.py lines 40-51;
    endpoint receive_transcript in backend/api/server.py) -/

def WEB_SERVER_PORT : Nat := 8000

/-- `WEB_SERVER_URL = f"http://localhost:8000"` from backend/config/settings.py. -/
def WEB_SERVER_URL : String := "http://localhost:" ++ toString WEB_SERVER_PORT

/-- A JSON value as appearing in the request body. -/
inductive JsonValue where
  | str (s : String)
  | num (q : Rat)
  | null
deriving DecidableEq

/-- An HTTP POST request: url, JSON object body as key/value pairs, timeout in
    seconds. -/
structure PostRequest where
  url : String
  body : List (String × JsonValue)
  timeout : Nat
deriving DecidableEq

/-- `None` confidence serialises to JSON null. -/
def jsonOfConfidence : Option Rat → JsonValue
  | some c => JsonValue.num c
  | none => JsonValue.null

/-- The single POST issued for one transcript:
    `data = {"text": text, "timestamp": timestamp, "confidence": confidence}` ;
    `requests.post(f"(WEB_SERVER_URL)/transcript", json=data, timeout=2)`. -/
def transcriptRequest (text timestamp : String) (confidence : Option Rat) :
    PostRequest :=
  { url := WEB_SERVER_URL ++ "/transcript"
    body := [("text", JsonValue.str text), ("timestamp", JsonValue.str timestamp),
             ("confidence", jsonOfConfidence confidence)]
    timeout := 2 }

/-- `send_to_web_server`: issue the POST; `except Exception: pass` — any delivery
    failure is swallowed and the caller always continues normally.  The network is
    a parameter mapping the request to success or failure. -/
def send_to_web_server (net : PostRequest → Except String Unit)
    (text timestamp : String) (confidence : Option Rat) : Except String Unit :=
  match net (transcriptRequest text timestamp confidence) with
  | Except.ok _ => Except.ok ()
  | Except.error _ => Except.ok ()

/-- C9 counterexample: the JSON body of the POST issued for a transcript has
    exactly the keys text, timestamp and confidence — there is no `source` field,
    contrary to the claimed `(text, timestamp, confidence, source)`. -/
theorem claim9_counterexample :
    (transcriptRequest "hello" "12:00:00" none).body.map Prod.fst =
      ["text", "timestamp", "confidence"] ∧
    "source" ∉ (transcriptRequest "hello" "12:00:00" none).body.map Prod.fst := by
  refine ⟨rfl, ?_⟩
  decide

/-- C9 amended: every non-empty result is delivered as a single POST whose JSON
    body has exactly the fields text, timestamp and confidence (the server defaults
    the absent `source` to "user" on receipt), with a 2-second timeout, and any
    delivery failure is swallowed without retry — the call returns normally for
    every network outcome, leaving the worker loop unaffected. -/
theorem claim9_amended_sink_contract (net : PostRequest → Except String Unit)
    (text timestamp : String) (confidence : Option Rat) :
    send_to_web_server net text timestamp confidence = Except.ok () ∧
    (transcriptRequest text timestamp confidence).body.map Prod.fst =
      ["text", "timestamp", "confidence"] ∧
    (transcriptRequest text timestamp confidence).timeout = 2 := by
  refine ⟨?_, rfl, rfl⟩
  unfold send_to_web_server
  cases net (transcriptRequest text timestamp confidence) <;> rfl

/-! ### Shutdown protocol (main, realtime_transcribe.py lines 387-400;
    transcription_worker, lines 148-156; capture pushes, line 343).
    Modelled as an interleaving transition system over the shared state:
    the Queue (FIFO list plus its unfinished-task counter), the recording flag,
    and the program counters of the shutdown initiator (the KeyboardInterrupt
    handler in `main`) and of the worker loop.  `pushed`/`processed` record the
    segments put by the capture thread and fully handled (through `task_done`)
    by the worker. -/

/-- A queue entry: a real segment or the `None` poison pill. -/
inductive QItem where
  | seg (s : SpeechSegment)
  | sentinel
deriving DecidableEq

/-- The segments among the queued items, in order. -/
def segsOf (q : List QItem) : List SpeechSegment :=
  q.filterMap (fun i => match i with | QItem.seg s => some s | QItem.sentinel => none)

/-- Program counter of the shutdown initiator in `main`:
    running; after `is_recording = False`; after `transcription_queue.join()`;
    after `transcription_queue.put(None)`; after `transcription_thread.join`. -/
inductive InitiatorPc where
  | running
  | flagSet
  | drained
  | sentinelSent
  | finished
deriving DecidableEq

/-- Program counter of `transcription_worker`: at the loop head (or blocked in
    `get`); holding a popped segment (before `task_done`); loop exited. -/
inductive WorkerPc where
  | loop
  | got (s : SpeechSegment)
  | done
deriving DecidableEq

/-- The segment currently held by the worker, if any. -/
def inflight : WorkerPc → List SpeechSegment
  | WorkerPc.got s => [s]
  | _ => []

structure ShutdownState where
  queue : List QItem
  unfinished_tasks : Nat
  is_recording : Bool
  initPc : InitiatorPc
  workerPc : WorkerPc
  sentinel_popped : Bool
  pushed : List SpeechSegment
  processed : List SpeechSegment
deriving DecidableEq

def initShutdownState : ShutdownState :=
  { queue := [], unfinished_tasks := 0, is_recording := true
    initPc := InitiatorPc.running, workerPc := WorkerPc.loop
    sentinel_popped := false, pushed := [], processed := [] }

/-- One interleaved step of the capture thread, the shutdown initiator, or the
    worker.  Each constructor embeds one statement of the source:
    * `push`   — `transcription_queue.put((full_audio, speech_duration))` by the
      capture loop, possible while the recording flag is up (pre-shutdown pushes);
    * `setFlag` — `is_recording = False` (the shutdown request);
    * `joinQueue` — `transcription_queue.join()`, which returns only once
      `unfinished_tasks == 0`;
    * `putSentinel` — `transcription_queue.put(None)`, only after the join;
    * `joinWorker` — `transcription_thread.join(timeout=5)` (bounded, so always
      able to proceed);
    * `popSeg`/`popSentinel` — `transcription_queue.get(timeout=0.5)` returning a
      segment (to be processed) or the poison pill (break, no `task_done`);
    * `processItem` — the loop body through `transcription_queue.task_done()`
      (exceptions are caught inside, so the body always completes);
    * `exitLoop` — the `while is_recording or not transcription_queue.empty()`
      test failing. -/
inductive ShutdownStep : ShutdownState → ShutdownState → Prop where
  | push (st : ShutdownState) (s : SpeechSegment) (hrec : st.is_recording = true) :
      ShutdownStep st { st with
        queue := st.queue ++ [QItem.seg s],
        unfinished_tasks := st.unfinished_tasks + 1,
        pushed := st.pushed ++ [s] }
  | setFlag (st : ShutdownState) (hpc : st.initPc = InitiatorPc.running) :
      ShutdownStep st { st with
        is_recording := false,
        initPc := InitiatorPc.flagSet }
  | joinQueue (st : ShutdownState) (hpc : st.initPc = InitiatorPc.flagSet)
      (hdone : st.unfinished_tasks = 0) :
      ShutdownStep st { st with initPc := InitiatorPc.drained }
  | putSentinel (st : ShutdownState) (hpc : st.initPc = InitiatorPc.drained) :
      ShutdownStep st { st with
        queue := st.queue ++ [QItem.sentinel],
        unfinished_tasks := st.unfinished_tasks + 1,
        initPc := InitiatorPc.sentinelSent }
  | joinWorker (st : ShutdownState) (hpc : st.initPc = InitiatorPc.sentinelSent) :
      ShutdownStep st { st with initPc := InitiatorPc.finished }
  | popSeg (st : ShutdownState) (s : SpeechSegment) (rest : List QItem)
      (hpc : st.workerPc = WorkerPc.loop) (hq : st.queue = QItem.seg s :: rest) :
      ShutdownStep st { st with
        queue := rest,
        workerPc := WorkerPc.got s }
  | popSentinel (st : ShutdownState) (rest : List QItem)
      (hpc : st.workerPc = WorkerPc.loop) (hq : st.queue = QItem.sentinel :: rest) :
      ShutdownStep st { st with
        queue := rest,
        workerPc := WorkerPc.done,
        sentinel_popped := true }
  | processItem (st : ShutdownState) (s : SpeechSegment)
      (hpc : st.workerPc = WorkerPc.got s) :
      ShutdownStep st { st with
        workerPc := WorkerPc.loop,
        processed := st.processed ++ [s],
        unfinished_tasks := st.unfinished_tasks - 1 }
  | exitLoop (st : ShutdownState) (hpc : st.workerPc = WorkerPc.loop)
      (hrec : st.is_recording = false) (hq : st.queue = []) :
      ShutdownStep st { st with workerPc := WorkerPc.done }

/-- States reachable from the initial state by interleaved steps. -/
def ShutdownReachable (st : ShutdownState) : Prop :=
  Relation.ReflTransGen ShutdownStep initShutdownState st

/-- Number of sentinels existing so far (still queued, or already popped). -/
def sentinelCount (st : ShutdownState) : Nat :=
  st.queue.countP (fun i => decide (i = QItem.sentinel)) +
    (if st.sentinel_popped then 1 else 0)

/-- Inductive invariant of the shutdown system. -/
def ShutdownInv (st : ShutdownState) : Prop :=
  st.pushed = st.processed ++ inflight st.workerPc ++ segsOf st.queue ∧
  st.unfinished_tasks = st.queue.length + (inflight st.workerPc).length +
    (if st.sentinel_popped then 1 else 0) ∧
  (st.is_recording = true ↔ st.initPc = InitiatorPc.running) ∧
  ((st.initPc = InitiatorPc.running ∨ st.initPc = InitiatorPc.flagSet ∨
      st.initPc = InitiatorPc.drained) → sentinelCount st = 0) ∧
  ((st.initPc = InitiatorPc.sentinelSent ∨ st.initPc = InitiatorPc.finished) →
      sentinelCount st = 1) ∧
  ((st.initPc = InitiatorPc.drained ∨ st.initPc = InitiatorPc.sentinelSent ∨
      st.initPc = InitiatorPc.finished) →
    st.processed = st.pushed ∧ segsOf st.queue = [] ∧
      inflight st.workerPc = []) ∧
  (st.workerPc = WorkerPc.done → st.processed = st.pushed ∧ st.is_recording = false)

theorem segsOf_append (q r : List QItem) : segsOf (q ++ r) = segsOf q ++ segsOf r := by
  simp [segsOf]

theorem ShutdownInv_init : ShutdownInv initShutdownState := by
  refine ⟨rfl, rfl, by simp [initShutdownState], ?_, ?_, ?_, ?_⟩ <;>
    simp [initShutdownState, sentinelCount, segsOf]

theorem inflight_loop : inflight WorkerPc.loop = [] := rfl

theorem inflight_done : inflight WorkerPc.done = [] := rfl

theorem inflight_got (s : SpeechSegment) : inflight (WorkerPc.got s) = [s] := rfl

theorem countSent_append (q r : List QItem) :
    List.countP (fun i => decide (i = QItem.sentinel)) (q ++ r) =
      List.countP (fun i => decide (i = QItem.sentinel)) q +
      List.countP (fun i => decide (i = QItem.sentinel)) r :=
  List.countP_append _ _ _

theorem countSent_seg (s : SpeechSegment) (q : List QItem) :
    List.countP (fun i => decide (i = QItem.sentinel)) (QItem.seg s :: q) =
      List.countP (fun i => decide (i = QItem.sentinel)) q := by
  simp [List.countP_cons]

theorem countSent_sent (q : List QItem) :
    List.countP (fun i => decide (i = QItem.sentinel)) (QItem.sentinel :: q) =
      List.countP (fun i => decide (i = QItem.sentinel)) q + 1 := by
  simp [List.countP_cons]

theorem ShutdownInv_step (st st' : ShutdownState) (hstep : ShutdownStep st st')
    (hinv : ShutdownInv st) : ShutdownInv st' := by
  obtain ⟨h1, h2, h3, h4, h5, h6, h7⟩ := hinv
  cases hstep with
  | push s hrec =>
    have hrun : st.initPc = InitiatorPc.running := h3.mp hrec
    refine ⟨?_, ?_, ?_, ?_, ?_, ?_, ?_⟩ <;> dsimp only
    · rw [h1, segsOf_append]
      simp [segsOf]
    · simp only [List.length_append, List.length_cons, List.length_nil]
      omega
    · exact h3
    · intro hpc
      simp only [sentinelCount]
      dsimp only
      simp only [countSent_append, countSent_seg, List.countP_nil]
      have := h4 hpc
      simp only [sentinelCount] at this
      omega
    · intro hpc
      simp only [sentinelCount]
      dsimp only
      simp only [countSent_append, countSent_seg, List.countP_nil]
      have := h5 hpc
      simp only [sentinelCount] at this
      omega
    · intro hpc
      rw [hrun] at hpc
      simp at hpc
    · intro hdone
      have := (h7 hdone).2
      rw [hrec] at this
      cases this
  | setFlag hpc =>
    refine ⟨?_, ?_, ?_, ?_, ?_, ?_, ?_⟩ <;> dsimp only
    · exact h1
    · exact h2
    · simp
    · intro _
      exact h4 (Or.inl hpc)
    · intro hp
      rcases hp with hp | hp <;> cases hp
    · intro hp
      rcases hp with hp | hp | hp <;> cases hp
    · intro hdone
      exact ⟨(h7 hdone).1, rfl⟩
  | joinQueue hpc hdone =>
    have hsp : st.sentinel_popped = false := by
      by_contra hcon
      rw [h2] at hdone
      simp only [Bool.not_eq_false] at hcon
      rw [hcon] at hdone
      simp at hdone
    have hlen : st.queue.length = 0 ∧ (inflight st.workerPc).length = 0 := by
      rw [h2, hsp] at hdone
      simp only [Bool.false_eq_true, if_false] at hdone
      exact ⟨by omega, by omega⟩
    have hqnil : st.queue = [] := List.length_eq_zero.mp hlen.1
    have hinf : inflight st.workerPc = [] := List.length_eq_zero.mp hlen.2
    refine ⟨?_, ?_, ?_, ?_, ?_, ?_, ?_⟩ <;> dsimp only
    · exact h1
    · exact h2
    · constructor
      · intro hr
        have := h3.mp hr
        rw [hpc] at this
        cases this
      · intro hr
        cases hr
    · intro _
      exact h4 (Or.inr (Or.inl hpc))
    · intro hp
      rcases hp with hp | hp <;> cases hp
    · intro _
      refine ⟨?_, ?_, hinf⟩
      · rw [h1, hqnil, hinf]
        simp [segsOf]
      · rw [hqnil]
        simp [segsOf]
    · intro hdone2
      exact h7 hdone2
  | putSentinel hpc =>
    have hpre := h6 (Or.inl hpc)
    refine ⟨?_, ?_, ?_, ?_, ?_, ?_, ?_⟩ <;> dsimp only
    · rw [h1, segsOf_append, hpre.2.1]
      simp [segsOf]
    · simp only [List.length_append, List.length_cons, List.length_nil]
      omega
    · constructor
      · intro hr
        have := h3.mp hr
        rw [hpc] at this
        cases this
      · intro hr
        cases hr
    · intro hp
      rcases hp with hp | hp | hp <;> cases hp
    · intro _
      have h0 := h4 (Or.inr (Or.inr hpc))
      simp only [sentinelCount] at h0 ⊢
      dsimp only
      simp only [countSent_append, countSent_sent, List.countP_nil]
      omega
    · intro _
      refine ⟨hpre.1, ?_, hpre.2.2⟩
      rw [segsOf_append, hpre.2.1]
      simp [segsOf]
    · intro hdone
      exact h7 hdone
  | joinWorker hpc =>
    refine ⟨?_, ?_, ?_, ?_, ?_, ?_, ?_⟩ <;> dsimp only
    · exact h1
    · exact h2
    · constructor
      · intro hr
        have := h3.mp hr
        rw [hpc] at this
        cases this
      · intro hr
        cases hr
    · intro hp
      rcases hp with hp | hp | hp <;> cases hp
    · intro _
      exact h5 (Or.inl hpc)
    · intro _
      exact h6 (Or.inr (Or.inl hpc))
    · intro hdone
      exact h7 hdone
  | popSeg s rest hpc hq =>
    refine ⟨?_, ?_, ?_, ?_, ?_, ?_, ?_⟩ <;> dsimp only
    · rw [h1, hq, hpc]
      simp [inflight, segsOf]
    · rw [h2, hq, hpc]
      simp [inflight]
    · exact h3
    · intro hp
      have := h4 hp
      simp only [sentinelCount] at this ⊢
      rw [hq, countSent_seg] at this
      dsimp only
      omega
    · intro hp
      have := h5 hp
      simp only [sentinelCount] at this ⊢
      rw [hq, countSent_seg] at this
      dsimp only
      omega
    · intro hp
      have := (h6 hp).2.1
      rw [hq] at this
      simp [segsOf] at this
    · intro hdone
      cases hdone
  | popSentinel rest hpc hq =>
    have hsent : st.initPc = InitiatorPc.sentinelSent ∨
        st.initPc = InitiatorPc.finished := by
      by_contra hcon
      push_neg at hcon
      have h0 : st.initPc = InitiatorPc.running ∨ st.initPc = InitiatorPc.flagSet ∨
          st.initPc = InitiatorPc.drained := by
        cases hoc : st.initPc <;> simp_all
      have := h4 h0
      simp only [sentinelCount] at this
      rw [hq, countSent_sent] at this
      omega
    have hone := h5 hsent
    simp only [sentinelCount] at hone
    rw [hq, countSent_sent] at hone
    have hflag : st.sentinel_popped = false ∧
        List.countP (fun i => decide (i = QItem.sentinel)) rest = 0 := by
      by_cases hsp : st.sentinel_popped = true
      · rw [hsp] at hone
        simp at hone
      · have hsp2 : st.sentinel_popped = false := by simpa using hsp
        rw [hsp2] at hone
        simp only [Bool.false_eq_true, if_false] at hone
        exact ⟨hsp2, by omega⟩
    have hpost := h6 (by
      rcases hsent with h | h
      · exact Or.inr (Or.inl h)
      · exact Or.inr (Or.inr h))
    refine ⟨?_, ?_, ?_, ?_, ?_, ?_, ?_⟩ <;> dsimp only
    · rw [h1, hq, hpc]
      simp [inflight, segsOf]
    · rw [h2, hq, hpc, hflag.1]
      simp [inflight]
    · exact h3
    · intro hp
      rcases hsent with h | h <;> rw [h] at hp <;> rcases hp with hp | hp | hp <;> cases hp
    · intro _
      simp only [sentinelCount]
      rw [hflag.2]
      simp
    · intro _
      refine ⟨hpost.1, ?_, rfl⟩
      have := hpost.2.1
      rw [hq] at this
      simpa [segsOf] using this
    · intro _
      refine ⟨hpost.1, ?_⟩
      by_cases hr : st.is_recording = true
      · have := h3.mp hr
        rcases hsent with h | h <;> rw [h] at this <;> cases this
      · simpa using hr
  | processItem s hpc =>
    refine ⟨?_, ?_, ?_, ?_, ?_, ?_, ?_⟩ <;> dsimp only
    · rw [h1, hpc]
      simp [inflight]
    · rw [hpc] at h2
      simp only [inflight, List.length_cons, List.length_nil] at h2
      simp only [inflight, List.length_nil]
      omega
    · exact h3
    · exact h4
    · exact h5
    · intro hp
      have := (h6 hp).2.2
      rw [hpc] at this
      simp [inflight] at this
    · intro hdone
      cases hdone
  | exitLoop hpc hrec hq =>
    refine ⟨?_, ?_, ?_, ?_, ?_, ?_, ?_⟩ <;> dsimp only
    · rw [h1, hpc]
      simp [inflight]
    · rw [h2, hpc]
      simp [inflight]
    · exact h3
    · exact h4
    · exact h5
    · intro hp
      have := h6 hp
      rw [hpc] at this
      exact ⟨this.1, this.2.1, rfl⟩
    · intro _
      refine ⟨?_, hrec⟩
      rw [h1, hq, hpc]
      simp [inflight, segsOf]

/-- The invariant holds in every reachable state. -/
theorem ShutdownInv_reachable (st : ShutdownState) (h : ShutdownReachable st) :
    ShutdownInv st := by
  induction h with
  | refl => exact ShutdownInv_init
  | tail _ hstep ih => exact ShutdownInv_step _ _ hstep ih

/-- C3: in every reachable state in which the worker loop has terminated, the list
    of processed segments equals — same segments, same order — the list of segments
    pushed before the shutdown request (the model admits pushes only while the
    recording flag is up).  The protocol order is built into the transitions: the
    sentinel can be put only from the `drained` pc, which `joinQueue` reaches only
    once `unfinished_tasks = 0`, and the worker join is bounded, so no pre-shutdown
    segment is ever dropped. -/
theorem claim3_graceful_drain (st : ShutdownState) (h : ShutdownReachable st)
    (hdone : st.workerPc = WorkerPc.done) : st.processed = st.pushed :=
  ((ShutdownInv_reachable st h).2.2.2.2.2.2 hdone).1

/-- Witness for C3: the interleaving push, flag, pop, process, join, sentinel,
    sentinel-pop reaches a terminated worker having processed exactly the pushed
    segment. -/
theorem claim3_graceful_drain_witness :
    (ShutdownState.mk [] 1 false InitiatorPc.sentinelSent WorkerPc.done true
        [SpeechSegment.mk [1] 500] [SpeechSegment.mk [1] 500]).processed =
      (ShutdownState.mk [] 1 false InitiatorPc.sentinelSent WorkerPc.done true
        [SpeechSegment.mk [1] 500] [SpeechSegment.mk [1] 500]).pushed :=
  claim3_graceful_drain _
    (Relation.ReflTransGen.head
      (ShutdownStep.push initShutdownState (SpeechSegment.mk [1] 500) rfl)
      (Relation.ReflTransGen.head (ShutdownStep.setFlag _ rfl)
        (Relation.ReflTransGen.head
          (ShutdownStep.popSeg _ (SpeechSegment.mk [1] 500) [] rfl rfl)
          (Relation.ReflTransGen.head
            (ShutdownStep.processItem _ (SpeechSegment.mk [1] 500) rfl)
            (Relation.ReflTransGen.head (ShutdownStep.joinQueue _ rfl rfl)
              (Relation.ReflTransGen.head (ShutdownStep.putSentinel _ rfl)
                (Relation.ReflTransGen.head (ShutdownStep.popSentinel _ [] rfl rfl)
                  Relation.ReflTransGen.refl)))))))
    rfl
